import Mathlib

/-!
Shallow embedding of the chatbot backend in src/backend/main.py.

The service is a FastAPI app with two chat modes (general chat and
retrieval-augmented PDF chat), process-wide mutable state consisting of the
globals vector_db_instance and pdf_loaded, and five stateless read endpoints.
External collaborators (the Groq chat-completion API, the PyPDF loader, the
recursive character splitter, the HuggingFace embedder and the FAISS store)
are modelled as oracles: each fallible library call either succeeds, with the
data it would return supplied as a parameter, or raises, with the exception
message supplied as a parameter.  File-system primitives (creating the named
temporary file, os.unlink of that file) are modelled as infallible; the
fallible steps modelled for an upload are shutil.copyfileobj, pdf_loader,
split_document and create_vector_db, which covers the failure modes the code
can hit between the extension check and the final response.

FastAPI renders a raised HTTPException(status_code, detail) as an error
response with that status; raising is modelled with Except.  In Python,
fastapi.HTTPException subclasses Exception and its str() is
"{status_code}: {detail}" (written here without braces in code), so an
HTTPException raised inside a try block is caught by a bare
except Exception clause and its text is embedded into the rewrapped detail;
the handlers below reproduce exactly that control flow.
-/

/-- An HTTPException value: status code plus human-readable detail. -/
structure HTTPError where
  status_code : Nat
  detail : String
deriving DecidableEq

deriving instance DecidableEq for Except

/-- The str() rendering of an HTTPException, used when a handler catches one
with a bare except Exception clause and embeds it into a new detail. -/
def HTTPError.str (e : HTTPError) : String :=
  toString e.status_code ++ ": " ++ e.detail

/-- Pydantic model ChatMessage from main.py: role and content are plain
strings, with no further validation. -/
structure ChatMessage where
  role : String
  content : String
deriving DecidableEq

/-- Pydantic model GeneralChatRequest: a message and an optional history,
defaulting to the empty list. -/
structure GeneralChatRequest where
  message : String
  history : List ChatMessage := []
deriving DecidableEq

/-- Pydantic model PDFChatRequest. -/
structure PDFChatRequest where
  question : String
deriving DecidableEq

/-- Pydantic model ChatResponse: the answer text plus an optional source
list, defaulting to None. -/
structure ChatResponse where
  response : String
  sources : Option (List String) := none
deriving DecidableEq

/-- A LangChain document (a loaded page, or a chunk derived from one).  The
only metadata key the code reads is source, via doc.metadata.get; the
metadata dict is therefore modelled by that single optional entry. -/
structure Document where
  text : String
  metadata_source : Option String
deriving DecidableEq

/-- The FAISS vector store built by create_vector_db, modelled as the list
of chunk documents it stores; retrieval returns stored documents. -/
structure VectorIndex where
  chunks : List Document
deriving DecidableEq

/-- The two module-level globals of main.py: vector_db_instance and
pdf_loaded. -/
structure ServiceState where
  vector_db_instance : Option VectorIndex
  pdf_loaded : Bool
deriving DecidableEq

/-- The state at process start: vector_db_instance = None, pdf_loaded =
False (main.py lines 35 and 36). -/
def initialState : ServiceState :=
  { vector_db_instance := none, pdf_loaded := false }

/-- The dict payload sent to the Groq chat-completions API for one message:
a role key and a content key, both strings. -/
structure GroqMessage where
  role : String
  content : String
deriving DecidableEq

/-- Oracle for the Groq chat-completion call in llm_answer: either the call
returns, with the list of choice texts, or it raises with a message. -/
inductive LLMOutcome where
  | ok (choices : List String)
  | err (msg : String)
deriving DecidableEq

/-- Helper llm_answer from main.py.  It builds the message dicts from the
history, calls the Groq API and returns the first choice content; any
exception (API failure, or an empty choices list making the index access
raise) is turned into HTTPException(500, "Error with Groq API: " ++ str(e)).
The returned pair exposes the message list handed to the API together with
the result. -/
def llm_answer (history : List ChatMessage) (llm : LLMOutcome) :
    List GroqMessage × Except HTTPError String :=
  let messages := history.map (fun m => { role := m.role, content := m.content : GroqMessage })
  match llm with
  | .err msg => (messages, .error { status_code := 500, detail := "Error with Groq API: " ++ msg })
  | .ok choices =>
    match choices with
    | [] => (messages, .error { status_code := 500, detail := "Error with Groq API: list index out of range" })
    | c :: _ => (messages, .ok c)

/-- Result of the POST /chat/general handler: the messages that were handed
to the LLM call, the HTTP response, and the globals afterwards. -/
structure GeneralChatOut where
  sentMessages : List GroqMessage
  response : Except HTTPError ChatResponse
  state : ServiceState
deriving DecidableEq

/-- Handler general_chat from main.py.  It copies request.history, appends a
new ChatMessage with role user and the request message, calls llm_answer and
wraps the text in a ChatResponse (sources left at its None default).  Its
bare except Exception clause also catches the HTTPException raised by
llm_answer and rewraps it as HTTPException(500, "Error processing general
chat: " ++ str(e)).  The handler never assigns the globals. -/
def general_chat (st : ServiceState) (request : GeneralChatRequest) (llm : LLMOutcome) :
    GeneralChatOut :=
  let history := request.history ++ [{ role := "user", content := request.message : ChatMessage }]
  match llm_answer history llm with
  | (sent, .ok text) =>
    { sentMessages := sent, response := .ok { response := text }, state := st }
  | (sent, .error e) =>
    { sentMessages := sent,
      response := .error { status_code := 500,
                           detail := "Error processing general chat: " ++ e.str },
      state := st }

/-- Python str.endswith on strings, modelled at the character level: a
string ends with the given tail when the tail is a suffix of its character
sequence.  This is what file.filename.endswith of the source computes. -/
def endswith (s tail : String) : Bool :=
  tail.data.isSuffixOf s.data

/-- Oracle for one POST /upload-pdf attempt past the extension check.  The
uploaded file is abstracted by what the pipeline would produce from it: on
success, the chunk list that pdf_loader followed by split_document yields
and that create_vector_db indexes.  Each failure constructor records which
library call raised, with the exception text. -/
inductive UploadOutcome where
  | copyFail (msg : String)
  | loadFail (msg : String)
  | splitFail (msg : String)
  | embedFail (msg : String)
  | success (chunks : List Document)
deriving DecidableEq

/-- Result of the POST /upload-pdf handler: the HTTP response, which of the
effects happened during the request, and the globals afterwards.
tempCreated records that the named temporary file was created; tempDeleted
that os.unlink removed it; loaderRan, splitterRan and embedderRan that the
corresponding pipeline call was reached. -/
structure UploadResult where
  response : Except HTTPError String
  tempCreated : Bool
  tempDeleted : Bool
  loaderRan : Bool
  splitterRan : Bool
  embedderRan : Bool
  state : ServiceState
deriving DecidableEq

/-- Handler upload_pdf from main.py.  Inside a try block it first checks the
filename suffix and raises HTTPException(400, "Only PDF files are allowed")
for a non-pdf name; it then writes the upload to a named temporary file,
runs pdf_loader, split_document and create_vector_db, assigns
vector_db_instance, sets pdf_loaded to True, unlinks the temporary file and
returns a success message.  The bare except Exception clause catches every
exception, including the 400 HTTPException itself, and raises
HTTPException(500, "Error processing PDF: " ++ str(e)); there is no
except HTTPException: raise clause in this handler, so the 400 is rewrapped
as a 500.  Cleanup of the temporary file happens only on the success path. -/
def upload_pdf (st : ServiceState) (filename : String) (out : UploadOutcome) :
    UploadResult :=
  if endswith filename ".pdf" = false then
    { response := .error { status_code := 500,
                           detail := "Error processing PDF: " ++
                             HTTPError.str { status_code := 400, detail := "Only PDF files are allowed" } },
      tempCreated := false, tempDeleted := false,
      loaderRan := false, splitterRan := false, embedderRan := false,
      state := st }
  else
    match out with
    | .copyFail msg =>
      { response := .error { status_code := 500, detail := "Error processing PDF: " ++ msg },
        tempCreated := true, tempDeleted := false,
        loaderRan := false, splitterRan := false, embedderRan := false,
        state := st }
    | .loadFail msg =>
      { response := .error { status_code := 500, detail := "Error processing PDF: " ++ msg },
        tempCreated := true, tempDeleted := false,
        loaderRan := true, splitterRan := false, embedderRan := false,
        state := st }
    | .splitFail msg =>
      { response := .error { status_code := 500, detail := "Error processing PDF: " ++ msg },
        tempCreated := true, tempDeleted := false,
        loaderRan := true, splitterRan := true, embedderRan := false,
        state := st }
    | .embedFail msg =>
      { response := .error { status_code := 500, detail := "Error processing PDF: " ++ msg },
        tempCreated := true, tempDeleted := false,
        loaderRan := true, splitterRan := true, embedderRan := true,
        state := st }
    | .success chunks =>
      { response := .ok ("PDF \x27" ++ filename ++ "\x27 uploaded and processed successfully"),
        tempCreated := true, tempDeleted := true,
        loaderRan := true, splitterRan := true, embedderRan := true,
        state := { vector_db_instance := some { chunks := chunks }, pdf_loaded := true } }

/-- Oracle for rag_query in the POST /chat/pdf handler: either the chain
returns a result text plus retrieved source documents, or it raises.  FAISS
retrieval returns documents stored in the index, so the retrieved documents
are given as positions into the chunk list of the current store. -/
inductive RagOutcome where
  | ok (result : String) (picks : List Nat)
  | err (msg : String)
deriving DecidableEq

/-- The source documents a retrieval with the given picks returns from a
chunk list: each valid position selects the stored chunk there. -/
def retrievedDocs (chunks : List Document) (picks : List Nat) : List Document :=
  picks.filterMap (fun i => chunks[i]?)

/-- The source-extraction loop of the pdf_chat handler (main.py lines 190 to
194): walk results source_documents in order, read metadata.get of source
with default Unknown, and append the identifier to the accumulator only when
it is not already present. -/
def extract_sources (source_documents : List Document) : List String :=
  source_documents.foldl
    (fun sources doc =>
      let source := doc.metadata_source.getD "Unknown"
      if source ∈ sources then sources else sources ++ [source])
    []

/-- Result of the POST /chat/pdf handler: the HTTP response, whether any
outbound call (retrieval plus LLM request inside rag_query) was started, and
the globals afterwards. -/
structure PdfChatOut where
  response : Except HTTPError ChatResponse
  outboundCall : Bool
  state : ServiceState
deriving DecidableEq

/-- Handler pdf_chat from main.py.  If pdf_loaded is falsy or
vector_db_instance is None it raises HTTPException(400, ...); this handler
does have an except HTTPException: raise clause, so that 400 reaches the
client unchanged.  Otherwise it runs rag_query, extracts the deduplicated
source list from the returned source_documents, and answers with the result
text plus the sources; a rag_query exception becomes HTTPException(500,
"Error processing PDF chat: " ++ str(e)).  The handler never assigns the
globals. -/
def pdf_chat (st : ServiceState) (request : PDFChatRequest) (rag : RagOutcome) :
    PdfChatOut :=
  match st.pdf_loaded, st.vector_db_instance with
  | true, some vdb =>
    (match rag with
     | .err msg =>
       { response := .error { status_code := 500, detail := "Error processing PDF chat: " ++ msg },
         outboundCall := true, state := st }
     | .ok result picks =>
       { response := .ok { response := result,
                           sources := some (extract_sources (retrievedDocs vdb.chunks picks)) },
         outboundCall := true, state := st })
  | _, _ =>
    { response := .error { status_code := 400,
                           detail := "No PDF loaded. Please upload a PDF first using /upload-pdf endpoint" },
      outboundCall := false, state := st }

/-- Handler clear_pdf for DELETE /pdf: unconditionally set both globals back
to their initial values and report success. -/
def clear_pdf (_st : ServiceState) : Except HTTPError String × ServiceState :=
  (.ok "PDF cleared successfully", { vector_db_instance := none, pdf_loaded := false })

/-- Response of the GET /status handler. -/
structure StatusResponse where
  general_chat : String
  pdf_chat : String
  pdf_loaded : Bool
deriving DecidableEq

/-- Handler get_status for GET /status. -/
def get_status (st : ServiceState) : StatusResponse :=
  { general_chat := "Available",
    pdf_chat := if st.pdf_loaded then "Available" else "No PDF loaded",
    pdf_loaded := st.pdf_loaded }

/-- One incoming HTTP request, together with the oracle outcomes of the
external calls the corresponding handler would make. -/
inductive Op where
  | root
  | health
  | status
  | generalChat (request : GeneralChatRequest) (llm : LLMOutcome)
  | uploadPdf (filename : String) (out : UploadOutcome)
  | pdfChat (request : PDFChatRequest) (rag : RagOutcome)
  | clearPdf
deriving DecidableEq

/-- The state transition of one request: the globals after the handler
finished (whether the response was a success or an error). -/
def step (st : ServiceState) : Op → ServiceState
  | .root => st
  | .health => st
  | .status => st
  | .generalChat request llm => (general_chat st request llm).state
  | .uploadPdf filename out => (upload_pdf st filename out).state
  | .pdfChat request rag => (pdf_chat st request rag).state
  | .clearPdf => (clear_pdf st).2

/-- The state after a sequence of requests. -/
def execOps (st : ServiceState) (ops : List Op) : ServiceState :=
  ops.foldl step st

/-- A request that commits a new index: an upload whose filename passes the
extension check and whose pipeline succeeds. -/
def Op.commitsUpload : Op → Bool
  | .uploadPdf filename (.success _) => endswith filename ".pdf"
  | _ => false

/-- A request to one of the two endpoints that assign the globals. -/
def Op.isMutating : Op → Bool
  | .uploadPdf _ _ => true
  | .clearPdf => true
  | _ => false

/-- The source identifier the pdf_chat handler reads off a document:
metadata.get of source with default Unknown. -/
def srcOf (d : Document) : String :=
  d.metadata_source.getD "Unknown"

/-- The invariant relating the two globals: the loaded flag is set exactly
when an index is present. -/
def stateInvariant (st : ServiceState) : Prop :=
  st.pdf_loaded = true ↔ st.vector_db_instance ≠ none

instance (st : ServiceState) : Decidable (stateInvariant st) := by
  unfold stateInvariant; infer_instance

/-- One step of the source-extraction loop, on the identifier already read
off the document: append it to the accumulator unless already present. -/
def dedupStep (sources : List String) (source : String) : List String :=
  if source ∈ sources then sources else sources ++ [source]

/-- The position of the first occurrence of an element in a list (the
length of the list when the element is absent). -/
def firstIdx : List String → String → Nat
  | [], _ => 0
  | a :: l, x => if a = x then 0 else firstIdx l x + 1

theorem firstIdx_append_of_mem {x : String} {p : List String} (q : List String) (h : x ∈ p) :
    firstIdx (p ++ q) x = firstIdx p x := by
  induction p with
  | nil => simp at h
  | cons a p ih =>
    by_cases hax : a = x
    · simp [firstIdx, hax]
    · have hx : x ∈ p := by
        rcases List.mem_cons.mp h with h1 | h1
        · exact absurd h1.symm hax
        · exact h1
      simp [firstIdx, hax, ih hx]

theorem firstIdx_append_of_not_mem {x : String} {p : List String} (q : List String) (h : x ∉ p) :
    firstIdx (p ++ q) x = p.length + firstIdx q x := by
  induction p with
  | nil => simp
  | cons a p ih =>
    have hax : a ≠ x := by
      intro he
      exact h (List.mem_cons.mpr (Or.inl he.symm))
    have hx : x ∉ p := fun hmem => h (List.mem_cons_of_mem a hmem)
    rw [List.cons_append]
    simp only [firstIdx, if_neg hax, List.length_cons, ih hx]
    omega

theorem firstIdx_lt_length {x : String} {p : List String} (h : x ∈ p) :
    firstIdx p x < p.length := by
  induction p with
  | nil => simp at h
  | cons a p ih =>
    by_cases hax : a = x
    · simp [firstIdx, hax]
    · have hx : x ∈ p := by
        rcases List.mem_cons.mp h with h1 | h1
        · exact absurd h1.symm hax
        · exact h1
      have := ih hx
      simp only [firstIdx, if_neg hax, List.length_cons]
      omega

/-- Invariant of the deduplicating fold: starting from an accumulator that
is the deduplication of an already-seen prefix p, folding the remaining list
yields a list with no duplicates whose members are exactly those of the full
list and whose order follows the first occurrences in the full list. -/
theorem dedup_foldl_spec (l : List String) : ∀ (p acc : List String),
    acc.Nodup →
    (∀ x, x ∈ acc ↔ x ∈ p) →
    acc.Pairwise (fun u v => firstIdx p u < firstIdx p v) →
    (List.foldl dedupStep acc l).Nodup ∧
    (∀ x, x ∈ List.foldl dedupStep acc l ↔ x ∈ p ++ l) ∧
    (List.foldl dedupStep acc l).Pairwise
      (fun u v => firstIdx (p ++ l) u < firstIdx (p ++ l) v) := by
  induction l with
  | nil =>
    intro p acc hnd hmem hpw
    simp only [List.foldl_nil, List.append_nil]
    exact ⟨hnd, hmem, hpw⟩
  | cons a l ih =>
    intro p acc hnd hmem hpw
    have happ : p ++ a :: l = (p ++ [a]) ++ l := by simp
    by_cases ha : a ∈ acc
    · have hstep : dedupStep acc a = acc := by simp [dedupStep, ha]
      have hmem2 : ∀ x, x ∈ acc ↔ x ∈ p ++ [a] := by
        intro x
        rw [List.mem_append]
        constructor
        · intro hx
          exact Or.inl ((hmem x).mp hx)
        · intro hx
          rcases hx with hx | hx
          · exact (hmem x).mpr hx
          · have hxa : x = a := by simpa using hx
            exact hxa ▸ ha
      have hpw2 : acc.Pairwise (fun u v => firstIdx (p ++ [a]) u < firstIdx (p ++ [a]) v) := by
        refine hpw.imp_of_mem ?_
        intro u v hu hv huv
        rw [firstIdx_append_of_mem [a] ((hmem u).mp hu),
            firstIdx_append_of_mem [a] ((hmem v).mp hv)]
        exact huv
      have hres := ih (p ++ [a]) acc hnd hmem2 hpw2
      rw [List.foldl_cons, hstep, happ]
      exact hres
    · have hstep : dedupStep acc a = acc ++ [a] := by simp [dedupStep, ha]
      have hap : a ∉ p := fun hx => ha ((hmem a).mpr hx)
      have hnd2 : (acc ++ [a]).Nodup := by
        rw [List.nodup_append]
        refine ⟨hnd, List.nodup_singleton a, ?_⟩
        intro x hx hxa
        have hxa2 : x = a := by simpa using hxa
        exact ha (hxa2 ▸ hx)
      have hmem2 : ∀ x, x ∈ acc ++ [a] ↔ x ∈ p ++ [a] := by
        intro x
        simp only [List.mem_append, List.mem_singleton]
        constructor
        · rintro (hx | hx)
          · exact Or.inl ((hmem x).mp hx)
          · exact Or.inr hx
        · rintro (hx | hx)
          · exact Or.inl ((hmem x).mpr hx)
          · exact Or.inr hx
      have hpw2 : (acc ++ [a]).Pairwise
          (fun u v => firstIdx (p ++ [a]) u < firstIdx (p ++ [a]) v) := by
        rw [List.pairwise_append]
        refine ⟨?_, List.pairwise_singleton _ _, ?_⟩
        · refine hpw.imp_of_mem ?_
          intro u v hu hv huv
          rw [firstIdx_append_of_mem [a] ((hmem u).mp hu),
              firstIdx_append_of_mem [a] ((hmem v).mp hv)]
          exact huv
        · intro u hu v hv
          have hv2 : v = a := by simpa using hv
          subst hv2
          have hup : u ∈ p := (hmem u).mp hu
          rw [firstIdx_append_of_mem [v] hup, firstIdx_append_of_not_mem [v] hap]
          have h1 : firstIdx p u < p.length := firstIdx_lt_length hup
          have h2 : firstIdx [v] v = 0 := by simp [firstIdx]
          omega
      have hres := ih (p ++ [a]) (acc ++ [a]) hnd2 hmem2 hpw2
      rw [List.foldl_cons, hstep, happ]
      exact hres

theorem extract_sources_eq_foldl (docs : List Document) :
    extract_sources docs = List.foldl dedupStep [] (docs.map srcOf) := by
  rw [List.foldl_map]
  rfl

/-- The extracted source list has no duplicates, contains exactly the
identifiers read off the retrieved documents, and lists them in the order
of their first occurrences. -/
theorem extract_sources_spec (docs : List Document) :
    (extract_sources docs).Nodup ∧
    (∀ x, x ∈ extract_sources docs ↔ x ∈ docs.map srcOf) ∧
    (extract_sources docs).Pairwise
      (fun u v => firstIdx (docs.map srcOf) u < firstIdx (docs.map srcOf) v) := by
  have h := dedup_foldl_spec (docs.map srcOf) [] [] List.nodup_nil (by simp) List.Pairwise.nil
  rw [extract_sources_eq_foldl]
  simpa using h

theorem general_chat_state_eq (st : ServiceState) (request : GeneralChatRequest)
    (llm : LLMOutcome) : (general_chat st request llm).state = st := by
  cases llm with
  | err msg => rfl
  | ok choices => cases choices <;> rfl

theorem pdf_chat_state_eq (st : ServiceState) (request : PDFChatRequest)
    (rag : RagOutcome) : (pdf_chat st request rag).state = st := by
  obtain ⟨db, loaded⟩ := st
  cases loaded <;> cases db <;> cases rag <;> rfl

theorem upload_pdf_state_of_error (st : ServiceState) (filename : String)
    (out : UploadOutcome) (e : HTTPError)
    (h : (upload_pdf st filename out).response = .error e) :
    (upload_pdf st filename out).state = st := by
  cases hf : endswith filename ".pdf"
  · simp [upload_pdf, hf]
  · cases out with
    | copyFail msg => simp [upload_pdf, hf]
    | loadFail msg => simp [upload_pdf, hf]
    | splitFail msg => simp [upload_pdf, hf]
    | embedFail msg => simp [upload_pdf, hf]
    | success chunks => simp [upload_pdf, hf] at h

/-- Claim C1: a non-pdf filename is turned away inside the try block before
the temporary file is created and before any pipeline call, with the globals
untouched; however the HTTPException with status 400 raised there is caught
by the bare except Exception clause of the same handler and rewrapped, so
the response the client sees carries status 500, not 400. -/
theorem upload_pdf_nonpdf_rejected_no_processing
    (st : ServiceState) (filename : String) (out : UploadOutcome)
    (h : endswith filename ".pdf" = false) :
    (upload_pdf st filename out).response =
      .error { status_code := 500,
               detail := "Error processing PDF: 400: Only PDF files are allowed" } ∧
    (upload_pdf st filename out).tempCreated = false ∧
    (upload_pdf st filename out).tempDeleted = false ∧
    (upload_pdf st filename out).loaderRan = false ∧
    (upload_pdf st filename out).splitterRan = false ∧
    (upload_pdf st filename out).embedderRan = false ∧
    (upload_pdf st filename out).state = st := by
  refine ⟨?_, ?_, ?_, ?_, ?_, ?_, ?_⟩ <;> (simp [upload_pdf, h, HTTPError.str]; try rfl)

theorem upload_pdf_nonpdf_rejected_no_processing_witness :
    endswith "notes.txt" ".pdf" = false ∧
    (upload_pdf initialState "notes.txt" (.success [])).response =
      .error { status_code := 500,
               detail := "Error processing PDF: 400: Only PDF files are allowed" } ∧
    (upload_pdf initialState "notes.txt" (.success [])).tempCreated = false ∧
    (upload_pdf initialState "notes.txt" (.success [])).state = initialState :=
  ⟨by decide,
   (upload_pdf_nonpdf_rejected_no_processing initialState "notes.txt" (.success []) (by decide)).1,
   (upload_pdf_nonpdf_rejected_no_processing initialState "notes.txt" (.success []) (by decide)).2.1,
   (upload_pdf_nonpdf_rejected_no_processing initialState "notes.txt" (.success []) (by decide)).2.2.2.2.2.2⟩

/-- Claim C2: the loaded flag is true exactly when an index is present; this
holds at process start and is preserved by every request, and an upload that
reports an error leaves the flag and the index exactly as they were. -/
theorem flag_index_invariant_preserved :
    stateInvariant initialState ∧
    (∀ (st : ServiceState) (op : Op), stateInvariant st → stateInvariant (step st op)) ∧
    (∀ (st : ServiceState) (filename : String) (out : UploadOutcome) (e : HTTPError),
      (upload_pdf st filename out).response = .error e →
      (upload_pdf st filename out).state = st) := by
  refine ⟨by simp [stateInvariant, initialState], ?_, ?_⟩
  · intro st op h
    cases op with
    | root => exact h
    | health => exact h
    | status => exact h
    | generalChat request llm =>
      show stateInvariant (general_chat st request llm).state
      rw [general_chat_state_eq]
      exact h
    | pdfChat request rag =>
      show stateInvariant (pdf_chat st request rag).state
      rw [pdf_chat_state_eq]
      exact h
    | clearPdf => simp [stateInvariant, step, clear_pdf]
    | uploadPdf filename out =>
      show stateInvariant (upload_pdf st filename out).state
      cases hf : endswith filename ".pdf"
      · simpa [upload_pdf, hf] using h
      · cases out with
        | copyFail msg => simpa [upload_pdf, hf] using h
        | loadFail msg => simpa [upload_pdf, hf] using h
        | splitFail msg => simpa [upload_pdf, hf] using h
        | embedFail msg => simpa [upload_pdf, hf] using h
        | success chunks => simp [upload_pdf, hf, stateInvariant]
  · intro st filename out e h
    exact upload_pdf_state_of_error st filename out e h

theorem flag_index_invariant_preserved_witness :
    stateInvariant (step initialState Op.clearPdf) ∧
    (upload_pdf initialState "notes.txt" (.success [])).state = initialState :=
  ⟨flag_index_invariant_preserved.2.1 initialState Op.clearPdf (by decide),
   flag_index_invariant_preserved.2.2 initialState "notes.txt" (.success [])
     { status_code := 500, detail := "Error processing PDF: 400: Only PDF files are allowed" }
     (by decide)⟩

/-- Claim C3: a PDF-chat request made while the flag is false or the index
is absent fails with the 400 precondition error (this handler re-raises
HTTPExceptions unchanged), starts no outbound call, and leaves the globals
as they were. -/
theorem pdf_chat_precondition_no_outbound
    (st : ServiceState) (request : PDFChatRequest) (rag : RagOutcome)
    (h : st.pdf_loaded = false ∨ st.vector_db_instance = none) :
    (pdf_chat st request rag).response =
      .error { status_code := 400,
               detail := "No PDF loaded. Please upload a PDF first using /upload-pdf endpoint" } ∧
    (pdf_chat st request rag).outboundCall = false ∧
    (pdf_chat st request rag).state = st := by
  obtain ⟨db, loaded⟩ := st
  rcases h with h | h
  · have hl : loaded = false := h
    subst hl
    cases db <;> exact ⟨rfl, rfl, rfl⟩
  · have hd : db = none := h
    subst hd
    cases loaded <;> exact ⟨rfl, rfl, rfl⟩

theorem pdf_chat_precondition_no_outbound_witness :
    (pdf_chat initialState { question := "q" } (.err "boom")).response =
      .error { status_code := 400,
               detail := "No PDF loaded. Please upload a PDF first using /upload-pdf endpoint" } ∧
    (pdf_chat initialState { question := "q" } (.err "boom")).outboundCall = false ∧
    (pdf_chat initialState { question := "q" } (.err "boom")).state = initialState :=
  pdf_chat_precondition_no_outbound initialState { question := "q" } (.err "boom") (Or.inl rfl)

/-- Claim C6: whenever the temporary file was created, it is removed exactly
when the pipeline ran to completion, equivalently exactly when the upload
responded with success; every failure after the temporary file was created
leaves the file behind, because the unlink call sits on the success path
only. -/
theorem temp_file_deleted_iff_pipeline_success
    (st : ServiceState) (filename : String) (out : UploadOutcome)
    (h : (upload_pdf st filename out).tempCreated = true) :
    ((upload_pdf st filename out).tempDeleted = true ↔
      ∃ chunks, out = .success chunks) ∧
    ((upload_pdf st filename out).tempDeleted = true ↔
      ∃ m, (upload_pdf st filename out).response = .ok m) := by
  cases hf : endswith filename ".pdf"
  · simp [upload_pdf, hf] at h
  · cases out with
    | copyFail msg => simp [upload_pdf, hf]
    | loadFail msg => simp [upload_pdf, hf]
    | splitFail msg => simp [upload_pdf, hf]
    | embedFail msg => simp [upload_pdf, hf]
    | success chunks => simp [upload_pdf, hf]

theorem temp_file_deleted_iff_pipeline_success_witness :
    (upload_pdf initialState "a.pdf" (.loadFail "bad")).tempCreated = true ∧
    ((upload_pdf initialState "a.pdf" (.loadFail "bad")).tempDeleted = true ↔
      ∃ chunks, (UploadOutcome.loadFail "bad") = .success chunks) :=
  ⟨by decide,
   (temp_file_deleted_iff_pipeline_success initialState "a.pdf" (.loadFail "bad") (by decide)).1⟩

/-- Claim C9: DELETE /pdf always answers with the success message, resets
both globals unconditionally, and a second call returns the same success
and the same final state as the first. -/
theorem clear_pdf_always_succeeds_idempotent (st : ServiceState) :
    clear_pdf st =
      (.ok "PDF cleared successfully",
       { vector_db_instance := none, pdf_loaded := false }) ∧
    clear_pdf (clear_pdf st).2 = clear_pdf st ∧
    (clear_pdf (clear_pdf st).2).2.pdf_loaded = false :=
  ⟨rfl, rfl, rfl⟩

/-- Claim C10: the root, health, status, general-chat and PDF-chat handlers
never assign the globals, on success or failure; a request can change the
globals only through the upload or the delete endpoint. -/
theorem read_endpoints_do_not_mutate_state
    (st : ServiceState) (op : Op) (h : op.isMutating = false) :
    step st op = st := by
  cases op with
  | root => rfl
  | health => rfl
  | status => rfl
  | generalChat request llm => exact general_chat_state_eq st request llm
  | pdfChat request rag => exact pdf_chat_state_eq st request rag
  | uploadPdf filename out => simp [Op.isMutating] at h
  | clearPdf => simp [Op.isMutating] at h

theorem read_endpoints_do_not_mutate_state_witness :
    step initialState (Op.pdfChat { question := "q" } (.err "x")) = initialState :=
  read_endpoints_do_not_mutate_state initialState
    (Op.pdfChat { question := "q" } (.err "x")) (by decide)

/-- Claim C4: on the success path, PDF chat answers with the RAG result and
a source list computed from the retrieved chunks; that list has no
duplicates, contains exactly the identifiers of the retrieved chunks with
Unknown substituted when absent, and lists them in the order of their first
occurrence among the retrieved chunks. -/
theorem pdf_chat_sources_dedup_first_seen
    (st : ServiceState) (vdb : VectorIndex) (request : PDFChatRequest)
    (result : String) (picks : List Nat)
    (hloaded : st.pdf_loaded = true) (hdb : st.vector_db_instance = some vdb) :
    (pdf_chat st request (.ok result picks)).response =
      .ok { response := result,
            sources := some (extract_sources (retrievedDocs vdb.chunks picks)) } ∧
    (extract_sources (retrievedDocs vdb.chunks picks)).Nodup ∧
    (∀ x, x ∈ extract_sources (retrievedDocs vdb.chunks picks) ↔
      x ∈ (retrievedDocs vdb.chunks picks).map srcOf) ∧
    (extract_sources (retrievedDocs vdb.chunks picks)).Pairwise
      (fun u v => firstIdx ((retrievedDocs vdb.chunks picks).map srcOf) u <
        firstIdx ((retrievedDocs vdb.chunks picks).map srcOf) v) := by
  obtain ⟨hnd, hmem, hpw⟩ := extract_sources_spec (retrievedDocs vdb.chunks picks)
  exact ⟨by simp [pdf_chat, hloaded, hdb], hnd, hmem, hpw⟩

theorem pdf_chat_sources_dedup_first_seen_witness :
    (pdf_chat
      { vector_db_instance :=
          some { chunks := [{ text := "t1", metadata_source := some "doc.pdf" },
                            { text := "t2", metadata_source := some "doc.pdf" },
                            { text := "t3", metadata_source := none }] },
        pdf_loaded := true }
      { question := "q" } (.ok "ans" [0, 1, 2])).response =
      .ok { response := "ans", sources := some ["doc.pdf", "Unknown"] } :=
  (pdf_chat_sources_dedup_first_seen
    { vector_db_instance :=
        some { chunks := [{ text := "t1", metadata_source := some "doc.pdf" },
                          { text := "t2", metadata_source := some "doc.pdf" },
                          { text := "t3", metadata_source := none }] },
      pdf_loaded := true }
    { chunks := [{ text := "t1", metadata_source := some "doc.pdf" },
                 { text := "t2", metadata_source := some "doc.pdf" },
                 { text := "t3", metadata_source := none }] }
    { question := "q" } "ans" [0, 1, 2] rfl rfl).1

/-- Claim C7: general chat hands the LLM exactly the caller history followed
by one new user message, in order; on success the body carries only the top
completion text and the sources field stays unset. -/
theorem general_chat_forwards_history_plus_user_message
    (st : ServiceState) (request : GeneralChatRequest) (llm : LLMOutcome) :
    (general_chat st request llm).sentMessages =
      request.history.map (fun m => { role := m.role, content := m.content : GroqMessage }) ++
        [{ role := "user", content := request.message }] ∧
    (general_chat st request llm).sentMessages.length = request.history.length + 1 ∧
    ∀ c rest, llm = .ok (c :: rest) →
      (general_chat st request llm).response = .ok { response := c, sources := none } := by
  have hsent : (general_chat st request llm).sentMessages =
      request.history.map (fun m => { role := m.role, content := m.content : GroqMessage }) ++
        [{ role := "user", content := request.message }] := by
    cases llm with
    | err msg => simp [general_chat, llm_answer]
    | ok choices => cases choices <;> simp [general_chat, llm_answer]
  refine ⟨hsent, ?_, ?_⟩
  · rw [hsent]
    simp
  · intro c rest h
    subst h
    rfl

theorem general_chat_forwards_history_plus_user_message_witness :
    (general_chat initialState
      { message := "How are you?", history := [{ role := "user", content := "Hi" }] }
      (.ok ["fine"])).sentMessages =
      [{ role := "user", content := "Hi" }, { role := "user", content := "How are you?" }] ∧
    (general_chat initialState
      { message := "How are you?", history := [{ role := "user", content := "Hi" }] }
      (.ok ["fine"])).response = .ok { response := "fine", sources := none } :=
  ⟨(general_chat_forwards_history_plus_user_message initialState
      { message := "How are you?", history := [{ role := "user", content := "Hi" }] }
      (.ok ["fine"])).1,
   (general_chat_forwards_history_plus_user_message initialState
      { message := "How are you?", history := [{ role := "user", content := "Hi" }] }
      (.ok ["fine"])).2.2 "fine" [] rfl⟩

/-- Claim C8 as stated fails on the code: ChatMessage declares role as a
plain string, so a history message whose role is neither user nor assistant
is not rejected as malformed; the request is processed, the message is
forwarded to the LLM with its role untouched, and the call succeeds. -/
theorem chatmessage_role_not_restricted_counterexample :
    (general_chat initialState
      { message := "hi", history := [{ role := "system", content := "x" }] }
      (.ok ["ok"])).response = .ok { response := "ok", sources := none } ∧
    ({ role := "system", content := "x" } : GroqMessage) ∈
      (general_chat initialState
        { message := "hi", history := [{ role := "system", content := "x" }] }
        (.ok ["ok"])).sentMessages :=
  ⟨rfl, by decide⟩

/-- Claim C8 amended: the boundary validates role and content only as
strings; a history message with any role value, in particular one outside
user and assistant, is accepted and forwarded verbatim to the LLM, and the
request still succeeds when the LLM call does. -/
theorem chatmessage_any_role_accepted_and_forwarded
    (st : ServiceState) (hist : List ChatMessage) (roleVal contentVal m c : String)
    (rest : List String) (h1 : roleVal ≠ "user") (h2 : roleVal ≠ "assistant") :
    ({ role := roleVal, content := contentVal } : GroqMessage) ∈
      (general_chat st
        { message := m, history := hist ++ [{ role := roleVal, content := contentVal }] }
        (.ok (c :: rest))).sentMessages ∧
    (general_chat st
      { message := m, history := hist ++ [{ role := roleVal, content := contentVal }] }
      (.ok (c :: rest))).response = .ok { response := c, sources := none } := by
  refine ⟨?_, rfl⟩
  show ({ role := roleVal, content := contentVal } : GroqMessage) ∈
    ((hist ++ [{ role := roleVal, content := contentVal : ChatMessage }]) ++
      [{ role := "user", content := m : ChatMessage }]).map
      (fun x => { role := x.role, content := x.content : GroqMessage })
  refine List.mem_map.mpr ⟨{ role := roleVal, content := contentVal }, ?_, rfl⟩
  simp

theorem chatmessage_any_role_accepted_and_forwarded_witness :
    ({ role := "system", content := "x" } : GroqMessage) ∈
      (general_chat initialState
        { message := "hi", history := [] ++ [{ role := "system", content := "x" }] }
        (.ok ("ok" :: []))).sentMessages :=
  (chatmessage_any_role_accepted_and_forwarded initialState [] "system" "x" "hi" "ok" []
    (by decide) (by decide)).1

theorem retrievedDocs_subset (chunks : List Document) (picks : List Nat) :
    ∀ d ∈ retrievedDocs chunks picks, d ∈ chunks := by
  intro d hd
  rw [retrievedDocs, List.mem_filterMap] at hd
  obtain ⟨i, _, hi⟩ := hd
  rw [List.getElem?_eq_some] at hi
  obtain ⟨hlt, hget⟩ := hi
  exact hget ▸ List.getElem_mem hlt

theorem extract_sources_subset_map (docs chunks : List Document)
    (hsub : ∀ d ∈ docs, d ∈ chunks) :
    ∀ s ∈ extract_sources docs, s ∈ chunks.map srcOf := by
  intro s hs
  have hmem : s ∈ docs.map srcOf := ((extract_sources_spec docs).2.1 s).mp hs
  rw [List.mem_map] at hmem ⊢
  obtain ⟨d, hd, hds⟩ := hmem
  exact ⟨d, hsub d hd, hds⟩

theorem step_index_of_not_commit (st : ServiceState) (op : Op)
    (h : op.commitsUpload = false) :
    (step st op).vector_db_instance = st.vector_db_instance ∨
    (step st op).vector_db_instance = none := by
  cases op with
  | root => exact Or.inl rfl
  | health => exact Or.inl rfl
  | status => exact Or.inl rfl
  | generalChat request llm =>
    refine Or.inl ?_
    show (general_chat st request llm).state.vector_db_instance = _
    rw [general_chat_state_eq]
  | pdfChat request rag =>
    refine Or.inl ?_
    show (pdf_chat st request rag).state.vector_db_instance = _
    rw [pdf_chat_state_eq]
  | clearPdf => exact Or.inr rfl
  | uploadPdf filename out =>
    show (upload_pdf st filename out).state.vector_db_instance = _ ∨
      (upload_pdf st filename out).state.vector_db_instance = none
    cases hf : endswith filename ".pdf"
    · refine Or.inl ?_
      cases out <;> simp [upload_pdf, hf]
    · cases out with
      | success chunks => simp [Op.commitsUpload, hf] at h
      | copyFail msg => exact Or.inl (by simp [upload_pdf, hf])
      | loadFail msg => exact Or.inl (by simp [upload_pdf, hf])
      | splitFail msg => exact Or.inl (by simp [upload_pdf, hf])
      | embedFail msg => exact Or.inl (by simp [upload_pdf, hf])

theorem execOps_index_cases (ops : List Op) : ∀ (st : ServiceState) (v : VectorIndex),
    (∀ op ∈ ops, op.commitsUpload = false) →
    (st.vector_db_instance = some v ∨ st.vector_db_instance = none) →
    ((execOps st ops).vector_db_instance = some v ∨
     (execOps st ops).vector_db_instance = none) := by
  induction ops with
  | nil =>
    intro st v _ h
    exact h
  | cons op ops ih =>
    intro st v hops h
    have hop : op.commitsUpload = false := hops op (List.mem_cons_self op ops)
    have hstep := step_index_of_not_commit st op hop
    have hnext : (step st op).vector_db_instance = some v ∨
        (step st op).vector_db_instance = none := by
      rcases hstep with he | he
      · rw [he]
        exact h
      · exact Or.inr he
    have hrest := ih (step st op) v (fun o ho => hops o (List.mem_cons_of_mem op ho)) hnext
    simpa [execOps, List.foldl_cons] using hrest

theorem pdf_chat_no_index_not_ok (st : ServiceState) (request : PDFChatRequest)
    (rag : RagOutcome) (resp : ChatResponse) (hdb : st.vector_db_instance = none) :
    (pdf_chat st request rag).response ≠ .ok resp := by
  intro hresp
  cases hl : st.pdf_loaded <;> simp [pdf_chat, hl, hdb] at hresp

theorem pdf_chat_ok_sources (st : ServiceState) (vdb : VectorIndex)
    (request : PDFChatRequest) (rag : RagOutcome) (resp : ChatResponse)
    (hdb : st.vector_db_instance = some vdb)
    (hresp : (pdf_chat st request rag).response = .ok resp) :
    ∃ result picks, rag = .ok result picks ∧
      resp = { response := result,
               sources := some (extract_sources (retrievedDocs vdb.chunks picks)) } := by
  cases hl : st.pdf_loaded
  · simp [pdf_chat, hl, hdb] at hresp
  · cases rag with
    | err msg => simp [pdf_chat, hl, hdb] at hresp
    | ok result picks =>
      refine ⟨result, picks, rfl, ?_⟩
      simp [pdf_chat, hl, hdb] at hresp
      exact hresp.symm

/-- Claim C5: a successful upload installs the new index in place of any
previous one, and along any later sequence of requests containing no
further successful upload, every successful PDF-chat response draws each of
its source identifiers from the chunks of that upload; an identifier not
among those, in particular one only found in an earlier document, is never
returned. -/
theorem upload_replaces_index_sources_only_from_latest
    (st : ServiceState) (filename : String) (chunksB : List Document)
    (hfn : endswith filename ".pdf" = true)
    (ops : List Op) (hops : ∀ op ∈ ops, op.commitsUpload = false)
    (request : PDFChatRequest) (rag : RagOutcome)
    (resp : ChatResponse) (srcs : List String)
    (hresp : (pdf_chat (execOps (upload_pdf st filename (.success chunksB)).state ops)
        request rag).response = .ok resp)
    (hsrcs : resp.sources = some srcs) :
    (upload_pdf st filename (.success chunksB)).state.vector_db_instance =
      some { chunks := chunksB } ∧
    ∀ s ∈ srcs, s ∈ chunksB.map srcOf := by
  have hstB : (upload_pdf st filename (.success chunksB)).state.vector_db_instance =
      some { chunks := chunksB } := by
    simp [upload_pdf, hfn]
  refine ⟨hstB, ?_⟩
  have hidx := execOps_index_cases ops (upload_pdf st filename (.success chunksB)).state
    { chunks := chunksB } hops (Or.inl hstB)
  rcases hidx with hidx | hidx
  · obtain ⟨result, picks, hrag, hres⟩ :=
      pdf_chat_ok_sources _ { chunks := chunksB } request rag resp hidx hresp
    have hs3 : srcs = extract_sources (retrievedDocs chunksB picks) := by
      rw [hres] at hsrcs
      exact (Option.some.inj hsrcs).symm
    intro s hs
    rw [hs3] at hs
    exact extract_sources_subset_map (retrievedDocs chunksB picks) chunksB
      (retrievedDocs_subset chunksB picks) s hs
  · exact absurd hresp (pdf_chat_no_index_not_ok _ request rag resp hidx)

theorem upload_replaces_index_sources_only_from_latest_witness :
    (upload_pdf initialState "b.pdf"
      (.success [{ text := "t", metadata_source := some "b.pdf" }])).state.vector_db_instance =
      some { chunks := [{ text := "t", metadata_source := some "b.pdf" }] } ∧
    ∀ s ∈ ["b.pdf"],
      s ∈ ([{ text := "t", metadata_source := some "b.pdf" }] : List Document).map srcOf :=
  upload_replaces_index_sources_only_from_latest initialState "b.pdf"
    [{ text := "t", metadata_source := some "b.pdf" }] (by decide) []
    (by intro op h; cases h)
    { question := "q" } (.ok "ans" [0])
    { response := "ans", sources := some ["b.pdf"] } ["b.pdf"] (by decide) rfl
